import Mathlib

/-!
A shallow embedding of the pathfinder core: transaction hashing
(crates/gateway-types/src/transaction_hash.rs), header storage
(crates/storage/src/connection/block.rs) and the p2p header sync ingester
(crates/pathfinder/src/sync/p2p/headers.rs), with theorems checking the
specification's claims about them.

Field elements are modelled as `Nat`; the Pedersen and Poseidon hash
primitives live in the `pathfinder_crypto` crate, outside the embedded
sources, so they are carried as abstract parameters (a `HashPrims` record):
every theorem about the hashing layer is proved for all instantiations of
the primitives.
-/

namespace Pathfinder

/-- Field element (`Felt`): the source's 252-bit field element. The claims
under study depend only on equality tests between hash values, so the field
is modelled by `Nat`. -/
abbrev Felt := Nat

/-- Modelled from the spec: the Pedersen and Poseidon hash primitives of
`pathfinder_crypto` (not among the embedded sources) as abstract functions,
plus the constant `sn_keccak("constructor")` entry point selector that
`compute_deploy_hash` computes via Keccak256. `poseidon` maps the sequence
of field elements written to a `PoseidonHasher` to the `finish` result. -/
structure HashPrims where
  pedersen : Felt → Felt → Felt
  poseidon : List Felt → Felt
  constructorSelector : Felt

/-- Modelled from the spec: `pathfinder_crypto::hash::HashChain` (not among
the embedded sources): "initialise accumulator to zero; absorb each element
by `acc := Pedersen(acc, x)`; finalise as `Pedersen(acc, count)` where
`count` is the number of absorbed elements". -/
structure HashChain where
  acc : Felt
  count : Nat

def HashChain.init : HashChain := ⟨0, 0⟩

def HashChain.update (P : HashPrims) (h : HashChain) (x : Felt) : HashChain :=
  ⟨P.pedersen h.acc x, h.count + 1⟩

def HashChain.finalize (P : HashPrims) (h : HashChain) : Felt :=
  P.pedersen h.acc h.count

/-- Absorb a whole list into a `HashChain` and finalize it. -/
def hashChain (P : HashPrims) (xs : List Felt) : Felt :=
  (xs.foldl (HashChain.update P) HashChain.init).finalize P

/-- `Felt::from_be_slice`: a byte string read as a big-endian integer. -/
def feltOfBytes (bs : List Nat) : Felt :=
  bs.foldl (fun a b => a * 256 + b) 0

/-- ASCII bytes of `b"declare"` as a field element. -/
def declareTag : Felt := feltOfBytes [0x64, 0x65, 0x63, 0x6c, 0x61, 0x72, 0x65]

/-- ASCII bytes of `b"deploy"` as a field element. -/
def deployTag : Felt := feltOfBytes [0x64, 0x65, 0x70, 0x6c, 0x6f, 0x79]

/-- ASCII bytes of `b"deploy_account"` as a field element. -/
def deployAccountTag : Felt :=
  feltOfBytes [0x64, 0x65, 0x70, 0x6c, 0x6f, 0x79, 0x5f,
               0x61, 0x63, 0x63, 0x6f, 0x75, 0x6e, 0x74]

/-- ASCII bytes of `b"invoke"` as a field element. -/
def invokeTag : Felt := feltOfBytes [0x69, 0x6e, 0x76, 0x6f, 0x6b, 0x65]

/-- ASCII bytes of `b"l1_handler"` as a field element. -/
def l1HandlerTag : Felt :=
  feltOfBytes [0x6c, 0x31, 0x5f, 0x68, 0x61, 0x6e, 0x64, 0x6c, 0x65, 0x72]

/-- ASCII bytes of `L1_GAS_RESOURCE_NAME = b"L1_GAS"`. -/
def l1GasName : Felt := feltOfBytes [0x4c, 0x31, 0x5f, 0x47, 0x41, 0x53]

/-- ASCII bytes of `L2_GAS_RESOURCE_NAME = b"L2_GAS"`. -/
def l2GasName : Felt := feltOfBytes [0x4c, 0x32, 0x5f, 0x47, 0x41, 0x53]

/-- `ResourceBound`: a 64-bit max amount and a 128-bit max price per unit. -/
structure ResourceBound where
  max_amount : Nat
  max_price_per_unit : Nat
deriving DecidableEq

/-- `ResourceBounds` with the L1 and L2 gas bounds. -/
structure ResourceBounds where
  l1_gas : ResourceBound
  l2_gas : ResourceBound
deriving DecidableEq

/-- `DeclareTransactionV0V1` restricted to the fields its hash formulas
consume, plus the self-reported hash. -/
structure DeclareTransactionV0V1 where
  class_hash : Felt
  max_fee : Felt
  nonce : Felt
  sender_address : Felt
  transaction_hash : Felt
deriving DecidableEq

/-- `DeclareTransactionV2` restricted to the fields its hash formula
consumes, plus the self-reported hash. -/
structure DeclareTransactionV2 where
  class_hash : Felt
  max_fee : Felt
  nonce : Felt
  sender_address : Felt
  compiled_class_hash : Felt
  transaction_hash : Felt
deriving DecidableEq

/-- `DeclareTransactionV3` restricted to the fields its hash formula
consumes, plus the self-reported hash. Data-availability modes are the
`u64` values the source casts the enum to. -/
structure DeclareTransactionV3 where
  class_hash : Felt
  nonce : Felt
  nonce_data_availability_mode : Nat
  fee_data_availability_mode : Nat
  resource_bounds : ResourceBounds
  tip : Felt
  paymaster_data : List Felt
  sender_address : Felt
  compiled_class_hash : Felt
  account_deployment_data : List Felt
  transaction_hash : Felt
deriving DecidableEq

/-- `DeployTransaction` restricted to the fields its hash formulas consume,
plus the self-reported hash. -/
structure DeployTransaction where
  contract_address : Felt
  version : Felt
  constructor_calldata : List Felt
  transaction_hash : Felt
deriving DecidableEq

/-- `DeployAccountTransactionV0V1` restricted to the fields its hash formula
consumes, plus the self-reported hash. -/
structure DeployAccountTransactionV0V1 where
  contract_address : Felt
  version : Felt
  max_fee : Felt
  nonce : Felt
  contract_address_salt : Felt
  constructor_calldata : List Felt
  class_hash : Felt
  transaction_hash : Felt
deriving DecidableEq

/-- `DeployAccountTransactionV3` restricted to the fields its hash formula
consumes, plus the self-reported hash. -/
structure DeployAccountTransactionV3 where
  nonce : Felt
  nonce_data_availability_mode : Nat
  fee_data_availability_mode : Nat
  resource_bounds : ResourceBounds
  tip : Felt
  paymaster_data : List Felt
  sender_address : Felt
  contract_address_salt : Felt
  constructor_calldata : List Felt
  class_hash : Felt
  transaction_hash : Felt
deriving DecidableEq

/-- `InvokeTransactionV0` restricted to the fields its hash formulas
consume, plus the self-reported hash. -/
structure InvokeTransactionV0 where
  calldata : List Felt
  sender_address : Felt
  entry_point_selector : Felt
  max_fee : Felt
  transaction_hash : Felt
deriving DecidableEq

/-- `InvokeTransactionV1` restricted to the fields its hash formula
consumes, plus the self-reported hash. -/
structure InvokeTransactionV1 where
  calldata : List Felt
  sender_address : Felt
  max_fee : Felt
  nonce : Felt
  transaction_hash : Felt
deriving DecidableEq

/-- `InvokeTransactionV3` restricted to the fields its hash formula
consumes, plus the self-reported hash. -/
structure InvokeTransactionV3 where
  nonce : Felt
  nonce_data_availability_mode : Nat
  fee_data_availability_mode : Nat
  resource_bounds : ResourceBounds
  tip : Felt
  paymaster_data : List Felt
  sender_address : Felt
  calldata : List Felt
  account_deployment_data : List Felt
  transaction_hash : Felt
deriving DecidableEq

/-- `L1HandlerTransaction` restricted to the fields its hash formulas
consume, plus the self-reported hash. -/
structure L1HandlerTransaction where
  contract_address : Felt
  entry_point_selector : Felt
  nonce : Felt
  calldata : List Felt
  version : Felt
  transaction_hash : Felt
deriving DecidableEq

/-- The `Transaction` tagged sum with one arm per variant, flattening the
nested `Declare`, `DeployAccount` and `Invoke` version enums. -/
inductive Transaction where
  | declareV0 (t : DeclareTransactionV0V1)
  | declareV1 (t : DeclareTransactionV0V1)
  | declareV2 (t : DeclareTransactionV2)
  | declareV3 (t : DeclareTransactionV3)
  | deploy (t : DeployTransaction)
  | deployAccountV0V1 (t : DeployAccountTransactionV0V1)
  | deployAccountV3 (t : DeployAccountTransactionV3)
  | invokeV0 (t : InvokeTransactionV0)
  | invokeV1 (t : InvokeTransactionV1)
  | invokeV3 (t : InvokeTransactionV3)
  | l1Handler (t : L1HandlerTransaction)
deriving DecidableEq

/-- Modelled from the spec: `Transaction::hash()` (defined with the reply
types, outside the embedded sources) returns the transaction's self-reported
hash, i.e. each variant's `transaction_hash` field. -/
def Transaction.hash : Transaction → Felt
  | .declareV0 t => t.transaction_hash
  | .declareV1 t => t.transaction_hash
  | .declareV2 t => t.transaction_hash
  | .declareV3 t => t.transaction_hash
  | .deploy t => t.transaction_hash
  | .deployAccountV0V1 t => t.transaction_hash
  | .deployAccountV3 t => t.transaction_hash
  | .invokeV0 t => t.transaction_hash
  | .invokeV1 t => t.transaction_hash
  | .invokeV3 t => t.transaction_hash
  | .l1Handler t => t.transaction_hash

/-- `VerifyResult`: `Match | Mismatch(TransactionHash)`. -/
inductive VerifyResult where
  | matched
  | mismatch (h : Felt)
deriving DecidableEq

/-- `NonceOrClassHash`: the optional eighth element of the v0-v2 chain. -/
inductive NonceOrClassHash where
  | nonce (n : Felt)
  | classHash (c : Felt)
  | none
deriving DecidableEq

/-- `compute_txn_hash`: the generic v0-v2 hash chain, absorbing the type
tag, version, address, entry-point-selector-or-zero, payload-list hash,
max-fee-or-zero, chain id, then the nonce or class hash when applicable,
then the compiled class hash when applicable. -/
def compute_txn_hash (P : HashPrims) (tag : Felt) (version : Felt)
    (address : Felt) (entry_point_selector : Option Felt) (list_hash : Felt)
    (max_fee : Option Felt) (chain_id : Felt)
    (nonce_or_class_hash : NonceOrClassHash)
    (compiled_class_hash : Option Felt) : Felt :=
  let base := [tag, version, address, entry_point_selector.getD 0, list_hash,
               max_fee.getD 0, chain_id]
  let withNonce :=
    match nonce_or_class_hash with
    | .nonce n => base ++ [n]
    | .classHash c => base ++ [c]
    | .none => base
  let elements :=
    match compiled_class_hash with
    | some c => withNonce ++ [c]
    | Option.none => withNonce
  hashChain P elements

/-- `legacy_compute_txn_hash`: the generic pre-0.8 hash chain with no
version and no max fee, and an optional extra element. -/
def legacy_compute_txn_hash (P : HashPrims) (tag : Felt) (address : Felt)
    (entry_point_selector : Option Felt) (list_hash : Felt) (chain_id : Felt)
    (additional_data : Option Felt) : Felt :=
  hashChain P
    ([tag, address, entry_point_selector.getD 0, list_hash, chain_id] ++
      additional_data.toList)

/-- `flattened_bounds`: a 32-byte big-endian word holding the resource name
in the top 8 bytes, the 64-bit max amount in the next 8 and the 128-bit max
price per unit in the last 16. -/
def flattened_bounds (resource_name : Felt) (b : ResourceBound) : Felt :=
  resource_name * 2 ^ 192 + b.max_amount * 2 ^ 128 + b.max_price_per_unit

/-- `hash_fee_related_fields`: Poseidon of the tip and the two flattened
resource bounds. -/
def hash_fee_related_fields (P : HashPrims) (tip : Felt)
    (resource_bounds : ResourceBounds) : Felt :=
  P.poseidon [tip, flattened_bounds l1GasName resource_bounds.l1_gas,
              flattened_bounds l2GasName resource_bounds.l2_gas]

/-- `compute_v3_txn_hash`: the generic v3 Poseidon hash over the tag,
version, sender, fee-fields hash, paymaster-data hash, chain id, nonce,
data-availability concatenation and the type-specific tail. -/
def compute_v3_txn_hash (P : HashPrims) (tag : Felt) (version : Felt)
    (sender_address : Felt) (chain_id : Felt) (nonce : Felt)
    (tx_type_specific_data : List Felt) (tip : Felt)
    (paymaster_data : List Felt) (nonce_data_availability_mode : Nat)
    (fee_data_availability_mode : Nat)
    (resource_bounds : ResourceBounds) : Felt :=
  let fee_fields_hash := hash_fee_related_fields P tip resource_bounds
  let da_mode_concatenation :=
    nonce_data_availability_mode * 2 ^ 32 + fee_data_availability_mode
  P.poseidon
    ([tag, version, sender_address, fee_fields_hash,
      P.poseidon paymaster_data, chain_id, nonce, da_mode_concatenation] ++
      tx_type_specific_data)

/-- `compute_declare_v0_hash`. -/
def compute_declare_v0_hash (P : HashPrims) (txn : DeclareTransactionV0V1)
    (chain_id : Felt) : Felt :=
  compute_txn_hash P declareTag 0 txn.sender_address Option.none
    (hashChain P []) Option.none chain_id (.classHash txn.class_hash)
    Option.none

/-- `compute_declare_v1_hash`. -/
def compute_declare_v1_hash (P : HashPrims) (txn : DeclareTransactionV0V1)
    (chain_id : Felt) : Felt :=
  compute_txn_hash P declareTag 1 txn.sender_address Option.none
    (hashChain P [txn.class_hash]) (some txn.max_fee) chain_id
    (.nonce txn.nonce) Option.none

/-- `compute_declare_v2_hash`. -/
def compute_declare_v2_hash (P : HashPrims) (txn : DeclareTransactionV2)
    (chain_id : Felt) : Felt :=
  compute_txn_hash P declareTag 2 txn.sender_address Option.none
    (hashChain P [txn.class_hash]) (some txn.max_fee) chain_id
    (.nonce txn.nonce) (some txn.compiled_class_hash)

/-- `compute_declare_v3_hash`. -/
def compute_declare_v3_hash (P : HashPrims) (txn : DeclareTransactionV3)
    (chain_id : Felt) : Felt :=
  compute_v3_txn_hash P declareTag 3 txn.sender_address chain_id txn.nonce
    [P.poseidon txn.account_deployment_data, txn.class_hash,
     txn.compiled_class_hash]
    txn.tip txn.paymaster_data txn.nonce_data_availability_mode
    txn.fee_data_availability_mode txn.resource_bounds

/-- `compute_deploy_hash`: the modern formula, falling back to the legacy
formula when the modern result does not equal the self-reported hash; the
fallback's result becomes the result of the computation. -/
def compute_deploy_hash (P : HashPrims) (txn : DeployTransaction)
    (chain_id : Felt) : Felt :=
  let constructor_params_hash := hashChain P txn.constructor_calldata
  let h := compute_txn_hash P deployTag txn.version txn.contract_address
    (some P.constructorSelector) constructor_params_hash Option.none chain_id
    .none Option.none
  if h = txn.transaction_hash then h
  else
    legacy_compute_txn_hash P deployTag txn.contract_address
      (some P.constructorSelector) constructor_params_hash chain_id
      Option.none

/-- `compute_deploy_account_v0v1_hash`. -/
def compute_deploy_account_v0v1_hash (P : HashPrims)
    (txn : DeployAccountTransactionV0V1) (chain_id : Felt) : Felt :=
  compute_txn_hash P deployAccountTag txn.version txn.contract_address
    Option.none
    (hashChain P
      ([txn.class_hash, txn.contract_address_salt] ++ txn.constructor_calldata))
    (some txn.max_fee) chain_id (.nonce txn.nonce) Option.none

/-- `compute_deploy_account_v3_hash`. -/
def compute_deploy_account_v3_hash (P : HashPrims)
    (txn : DeployAccountTransactionV3) (chain_id : Felt) : Felt :=
  compute_v3_txn_hash P deployAccountTag 3 txn.sender_address chain_id
    txn.nonce
    [P.poseidon txn.constructor_calldata, txn.class_hash,
     txn.contract_address_salt]
    txn.tip txn.paymaster_data txn.nonce_data_availability_mode
    txn.fee_data_availability_mode txn.resource_bounds

/-- `compute_invoke_v0_hash`: the modern formula, falling back to the legacy
formula when the modern result does not equal the self-reported hash; the
fallback's result becomes the result of the computation. -/
def compute_invoke_v0_hash (P : HashPrims) (txn : InvokeTransactionV0)
    (chain_id : Felt) : Felt :=
  let call_params_hash := hashChain P txn.calldata
  let h := compute_txn_hash P invokeTag 0 txn.sender_address
    (some txn.entry_point_selector) call_params_hash (some txn.max_fee)
    chain_id .none Option.none
  if h = txn.transaction_hash then h
  else
    legacy_compute_txn_hash P invokeTag txn.sender_address
      (some txn.entry_point_selector) call_params_hash chain_id Option.none

/-- `compute_invoke_v1_hash`. -/
def compute_invoke_v1_hash (P : HashPrims) (txn : InvokeTransactionV1)
    (chain_id : Felt) : Felt :=
  compute_txn_hash P invokeTag 1 txn.sender_address Option.none
    (hashChain P txn.calldata) (some txn.max_fee) chain_id (.nonce txn.nonce)
    Option.none

/-- `compute_invoke_v3_hash`. -/
def compute_invoke_v3_hash (P : HashPrims) (txn : InvokeTransactionV3)
    (chain_id : Felt) : Felt :=
  compute_v3_txn_hash P invokeTag 3 txn.sender_address chain_id txn.nonce
    [P.poseidon txn.account_deployment_data, P.poseidon txn.calldata]
    txn.tip txn.paymaster_data txn.nonce_data_availability_mode
    txn.fee_data_availability_mode txn.resource_bounds

/-- `compute_l1_handler_hash`: the modern formula, then the legacy formula
with the `l1_handler` tag and the nonce appended, then the legacy formula
with the `invoke` tag and no nonce; each fallback is used only when the
previous result does not equal the self-reported hash, and the last
computed result becomes the result of the computation. -/
def compute_l1_handler_hash (P : HashPrims) (txn : L1HandlerTransaction)
    (chain_id : Felt) : Felt :=
  let call_params_hash := hashChain P txn.calldata
  let h := compute_txn_hash P l1HandlerTag txn.version txn.contract_address
    (some txn.entry_point_selector) call_params_hash Option.none chain_id
    (.nonce txn.nonce) Option.none
  if h = txn.transaction_hash then h
  else
    let h2 := legacy_compute_txn_hash P l1HandlerTag txn.contract_address
      (some txn.entry_point_selector) call_params_hash chain_id
      (some txn.nonce)
    if h2 = txn.transaction_hash then h2
    else
      legacy_compute_txn_hash P invokeTag txn.contract_address
        (some txn.entry_point_selector) call_params_hash chain_id Option.none

/-- `compute_transaction_hash`: dispatch on the transaction variant. -/
def compute_transaction_hash (P : HashPrims) (txn : Transaction)
    (chain_id : Felt) : Felt :=
  match txn with
  | .declareV0 t => compute_declare_v0_hash P t chain_id
  | .declareV1 t => compute_declare_v1_hash P t chain_id
  | .declareV2 t => compute_declare_v2_hash P t chain_id
  | .declareV3 t => compute_declare_v3_hash P t chain_id
  | .deploy t => compute_deploy_hash P t chain_id
  | .deployAccountV0V1 t => compute_deploy_account_v0v1_hash P t chain_id
  | .deployAccountV3 t => compute_deploy_account_v3_hash P t chain_id
  | .invokeV0 t => compute_invoke_v0_hash P t chain_id
  | .invokeV1 t => compute_invoke_v1_hash P t chain_id
  | .invokeV3 t => compute_invoke_v3_hash P t chain_id
  | .l1Handler t => compute_l1_handler_hash P t chain_id

/-- `verify`: `Match` when the computed hash equals the self-reported hash,
otherwise `Mismatch` carrying the computed hash. -/
def verify (P : HashPrims) (txn : Transaction) (chain_id : Felt) :
    VerifyResult :=
  let computed_hash := compute_transaction_hash P txn chain_id
  if computed_hash = txn.hash then .matched else .mismatch computed_hash

/-!
Storage layer: crates/storage/src/connection/block.rs. Tables are lists of
rows; field elements and identifiers are `Nat` as above. `StarknetVersion`
wraps a string, interned through the `starknet_versions` table.
-/

/-- A row of the `block_headers` table: exactly the columns
`insert_block_header` writes. The parent hash is not a column; it is derived
at read time (see `block_header`). The version is stored interned as
`version_id`. -/
structure HeaderRow where
  number : Nat
  hash : Nat
  storage_commitment : Nat
  timestamp : Nat
  eth_l1_gas_price : Nat
  strk_l1_gas_price : Nat
  sequencer_address : Nat
  version_id : Nat
  transaction_commitment : Nat
  event_commitment : Nat
  state_commitment : Nat
  class_commitment : Nat
  transaction_count : Nat
  event_count : Nat
deriving DecidableEq

/-- `BlockHeader` from crates/common/src/header.rs (the fields the embedded
operations read or write). -/
structure BlockHeader where
  hash : Nat
  parent_hash : Nat
  number : Nat
  timestamp : Nat
  eth_l1_gas_price : Nat
  strk_l1_gas_price : Nat
  sequencer_address : Nat
  starknet_version : String
  class_commitment : Nat
  event_commitment : Nat
  state_commitment : Nat
  storage_commitment : Nat
  transaction_commitment : Nat
  transaction_count : Nat
  event_count : Nat
deriving DecidableEq

/-- A row of `contract_roots(contract, block_number, root_index)`. -/
structure ContractRootRow where
  contract : Nat
  block_number : Nat
  root_index : Nat
deriving DecidableEq

/-- A row of `class_commitment_leaves`, keyed by `block_number`; the rest of
the row is opaque payload (its schema lives outside the embedded sources,
only the key matters to the purge). -/
structure ClassCommitmentLeafRow where
  block_number : Nat
  payload : Nat
deriving DecidableEq

/-- A row of `contract_state_hashes`, keyed by `block_number`; the rest of
the row is opaque payload. -/
structure ContractStateHashRow where
  block_number : Nat
  payload : Nat
deriving DecidableEq

/-- A row of `class_roots(block_number, root_index)` or
`storage_roots(block_number, root_index)`. -/
structure RootIndexRow where
  block_number : Nat
  root_index : Nat
deriving DecidableEq

/-- A row of `starknet_transactions`, keyed by the hash of its block; the
rest of the row is opaque payload. -/
structure TransactionRow where
  block_hash : Nat
  payload : Nat
deriving DecidableEq

/-- Modelled from the spec: a row of the block signature store written by
`insert_signature` (whose implementation is outside the embedded sources):
the block number it is keyed by and the commitment signature. -/
structure SignatureRow where
  block_number : Nat
  signature : Nat
deriving DecidableEq

/-- A row of the long-lived class-definitions table (opaque: the purge never
touches it). -/
structure ClassDefinitionRow where
  class_hash : Nat
  payload : Nat
deriving DecidableEq

/-- The database: one list per table the embedded operations touch. -/
structure Db where
  block_headers : List HeaderRow
  canonical_blocks : List (Nat × Nat)
  starknet_versions : List String
  starknet_transactions : List TransactionRow
  contract_roots : List ContractRootRow
  class_commitment_leaves : List ClassCommitmentLeafRow
  contract_state_hashes : List ContractStateHashRow
  class_roots : List RootIndexRow
  storage_roots : List RootIndexRow
  block_signatures : List SignatureRow
  class_definitions : List ClassDefinitionRow
deriving DecidableEq

/-- The empty database. -/
def Db.empty : Db := ⟨[], [], [], [], [], [], [], [], [], [], []⟩

/-- `BlockId`: `Latest | Number(n) | Hash(h)`. -/
inductive BlockId where
  | latest
  | number (n : Nat)
  | hash (h : Nat)
deriving DecidableEq

/-- `intern_starknet_version`: the id of an existing `starknet_versions` row
for this version, or the id freshly assigned by appending one. Row ids are
list positions. -/
def intern_starknet_version (versions : List String) (v : String) :
    Nat × List String :=
  match versions.findIdx? (· == v) with
  | some id => (id, versions)
  | Option.none => (versions.length, versions ++ [v])

/-- `insert_block_header`: interns the version, inserts the header row, then
the `canonical_blocks(number, hash)` row. An insert violating a primary-key
or unique constraint (`block_headers.number`, `block_headers.hash`,
`canonical_blocks.number`) fails the enclosing transaction: the result is
`none` and no state change happens. -/
def insert_block_header (db : Db) (header : BlockHeader) : Option Db :=
  let interned := intern_starknet_version db.starknet_versions
    header.starknet_version
  if db.block_headers.any
      (fun r => r.number == header.number || r.hash == header.hash) then
    Option.none
  else if db.canonical_blocks.any (fun c => c.1 == header.number) then
    Option.none
  else
    some { db with
      starknet_versions := interned.2
      block_headers := db.block_headers ++
        [⟨header.number, header.hash, header.storage_commitment,
          header.timestamp, header.eth_l1_gas_price, header.strk_l1_gas_price,
          header.sequencer_address, interned.1, header.transaction_commitment,
          header.event_commitment, header.state_commitment,
          header.class_commitment, header.transaction_count,
          header.event_count⟩]
      canonical_blocks := db.canonical_blocks ++
        [(header.number, header.hash)] }

/-- The row of a list of header rows with the greatest block number
(`ORDER BY number DESC LIMIT 1`). -/
def selectMaxRow (rows : List HeaderRow) : Option HeaderRow :=
  rows.foldl
    (fun acc r =>
      match acc with
      | Option.none => some r
      | some a => if r.number > a.number then some r else some a)
    Option.none

/-- `next_ancestor`: the greatest-numbered header row strictly below
`target`, as a `(number, hash)` pair. -/
def next_ancestor (db : Db) (target : Nat) : Option (Nat × Nat) :=
  (selectMaxRow (db.block_headers.filter
    (fun r => decide (r.number < target)))).map (fun r => (r.number, r.hash))

/-- `next_ancestor_without_parent`: the greatest-numbered header row at or
below `target` whose parent row (`number - 1` over SQL integers, so genesis
never has one) is absent, as a `(number, hash)` pair. -/
def next_ancestor_without_parent (db : Db) (target : Nat) :
    Option (Nat × Nat) :=
  (selectMaxRow (db.block_headers.filter
    (fun r => decide (r.number ≤ target) &&
      !(db.block_headers.any (fun t2 => t2.number + 1 == r.number))))).map
    (fun r => (r.number, r.hash))

/-- `purge_block`: in one transaction, deletes the transactions whose block
hash is the `canonical_blocks` hash at `block` (a NULL scalar subquery when
that row is absent deletes nothing), then the rows keyed by `block` in
`canonical_blocks`, `block_headers`, `contract_roots`,
`class_commitment_leaves`, `contract_state_hashes`, `class_roots` and
`storage_roots`. -/
def purge_block (db : Db) (block : Nat) : Db :=
  let canonical_hash :=
    (db.canonical_blocks.find? (fun c => c.1 == block)).map (·.2)
  { db with
    starknet_transactions := db.starknet_transactions.filter
      (fun t =>
        match canonical_hash with
        | some h => !(t.block_hash == h)
        | Option.none => true)
    canonical_blocks := db.canonical_blocks.filter (fun c => !(c.1 == block))
    block_headers := db.block_headers.filter (fun r => !(r.number == block))
    contract_roots := db.contract_roots.filter
      (fun r => !(r.block_number == block))
    class_commitment_leaves := db.class_commitment_leaves.filter
      (fun r => !(r.block_number == block))
    contract_state_hashes := db.contract_state_hashes.filter
      (fun r => !(r.block_number == block))
    class_roots := db.class_roots.filter (fun r => !(r.block_number == block))
    storage_roots := db.storage_roots.filter
      (fun r => !(r.block_number == block)) }

/-- `block_exists`: whether `canonical_blocks` has a row for the id. -/
def block_exists (db : Db) (block : BlockId) : Bool :=
  match block with
  | .latest => !db.canonical_blocks.isEmpty
  | .number n => db.canonical_blocks.any (fun c => c.1 == n)
  | .hash h => db.canonical_blocks.any (fun c => c.2 == h)

/-- The `block_headers` row `block_header` selects for a block id: by
number, by hash, or the greatest-numbered row for `Latest`. -/
def selected_header_row (db : Db) (block : BlockId) : Option HeaderRow :=
  match block with
  | .latest => selectMaxRow db.block_headers
  | .number n => db.block_headers.find? (fun r => r.number == n)
  | .hash h => db.block_headers.find? (fun r => r.hash == h)

/-- The storage error the embedded reads can surface: a `query_row` finding
no row (`rusqlite::Error::QueryReturnedNoRows`). -/
inductive StorageError where
  | queryReturnedNoRows
deriving DecidableEq

/-- `block_header`: selects the header row joined with its interned version,
parses it with a zero parent hash, then (except at genesis) overwrites the
parent hash with the hash of the row at `number - 1` via a non-optional
`query_row` — which errors when that row is absent. -/
def block_header (db : Db) (block : BlockId) :
    Except StorageError (Option BlockHeader) :=
  match selected_header_row db block with
  | Option.none => .ok Option.none
  | some r =>
    let parsed : BlockHeader :=
      { hash := r.hash
        parent_hash := 0
        number := r.number
        timestamp := r.timestamp
        eth_l1_gas_price := r.eth_l1_gas_price
        strk_l1_gas_price := r.strk_l1_gas_price
        sequencer_address := r.sequencer_address
        starknet_version := (db.starknet_versions.get? r.version_id).getD ("")
        class_commitment := r.class_commitment
        event_commitment := r.event_commitment
        state_commitment := r.state_commitment
        storage_commitment := r.storage_commitment
        transaction_commitment := r.transaction_commitment
        transaction_count := r.transaction_count
        event_count := r.event_count }
    if r.number ≠ 0 then
      match db.block_headers.find? (fun p => p.number == r.number - 1) with
      | Option.none => .error .queryReturnedNoRows
      | some parent => .ok (some { parsed with parent_hash := parent.hash })
    else
      .ok (some parsed)

/-!
Sync ingester: crates/pathfinder/src/sync/p2p/headers.rs.
-/

/-- Modelled from the spec: the p2p layer's `PeerData` wrapper (defined in
the p2p client modules, outside the embedded sources): a payload tagged with
the source peer identity. -/
structure PeerData (α : Type) where
  peer : Nat
  data : α
deriving DecidableEq

/-- `SignedBlockHeader`: a header with its commitment signature (the
signature's cryptographic content is out of scope and opaque). -/
structure SignedBlockHeader where
  header : BlockHeader
  signature : Nat
deriving DecidableEq

/-- `HeaderSyncError`. -/
inductive HeaderSyncError where
  | databaseError
  | badSignature (x : PeerData SignedBlockHeader)
  | badBlockHash (x : PeerData SignedBlockHeader)
  | discontinuity (x : PeerData SignedBlockHeader)
deriving DecidableEq

/-- `SignedHeaderResult`. -/
abbrev SignedHeaderResult :=
  Except HeaderSyncError (PeerData SignedBlockHeader)

/-- `HeaderGap`: an inclusive range of missing headers, with the hash of its
head and the hash of its tail's parent. -/
structure HeaderGap where
  head : Nat
  head_hash : Nat
  tail : Nat
  tail_parent_hash : Nat
deriving DecidableEq

/-- `next_gap`: the head anchor becomes the gap head when it is not locally
present, otherwise the next ancestor without a parent does (`none` when that
query finds nothing); the gap tail is one above the next ancestor below the
gap head, defaulting to `(0, 0)` when none exists. -/
def next_gap (db : Db) (head : Nat) (head_hash : Nat) : Option HeaderGap :=
  let head_exists := block_exists db (.number head)
  let gap_head? : Option (Nat × Nat) :=
    if head_exists then next_ancestor_without_parent db head
    else some (head, head_hash)
  gap_head?.map (fun gap_head =>
    let gap_tail := (next_ancestor db gap_head.1).getD (0, 0)
    { head := gap_head.1
      head_hash := gap_head.2
      tail := gap_tail.1 + 1
      tail_parent_hash := gap_tail.2 })

/-- The state `check_continuity` carries: the expected next block number and
hash, and the poisoned flag. -/
structure ContinuityState where
  next_number : Nat
  next_hash : Nat
  poisoned : Bool
deriving DecidableEq

/-- `check_continuity`: when poisoned, emits nothing (which ends the
`scan`); otherwise compares the input header's number and hash to the
expectation, overwrites the expectation with the input header's own number
and hash, and either passes the input on or emits `Discontinuity` and sets
the poisoned flag. Returns the updated state and the emitted item. -/
def check_continuity (expected : ContinuityState)
    (input : PeerData SignedBlockHeader) :
    ContinuityState × Option SignedHeaderResult :=
  if expected.poisoned then (expected, Option.none)
  else
    let header := input.data.header
    let is_correct := header.number == expected.next_number &&
      header.hash == expected.next_hash
    let updated : ContinuityState :=
      { expected with next_number := header.number, next_hash := header.hash }
    if is_correct then (updated, some (.ok input))
    else ({ updated with poisoned := true },
      some (.error (.discontinuity input)))

/-- A stream scanned through `check_continuity`: each input updates the
state; an input for which nothing is emitted ends the output stream. -/
def runContinuity (expected : ContinuityState) :
    List (PeerData SignedBlockHeader) →
      ContinuityState × List SignedHeaderResult
  | [] => (expected, [])
  | input :: rest =>
    match check_continuity expected input with
    | (updated, Option.none) => (updated, [])
    | (updated, some out) =>
      let next := runContinuity updated rest
      (next.1, out :: next.2)

/-- `SignedBlockHeader::verify_signature` (crates/common/src/header.rs): the
source stub accepts every signature. -/
def verify_signature (_s : SignedBlockHeader) : Bool := true

/-- `verify` on a signed header: `BadSignature` when the signature check
rejects, then `BadBlockHash` when the hash-recomputation predicate rejects,
otherwise `Ok`. `BlockHeader::verify_hash` is a `todo!()` stub in the
source; the spec leaves it as a required capability, so it is carried here
as an abstract predicate `verify_hash`. -/
def verify_header (verify_hash : BlockHeader → Bool)
    (signed_header : PeerData SignedBlockHeader) : SignedHeaderResult :=
  if !(verify_signature signed_header.data) then
    .error (.badSignature signed_header)
  else if !(verify_hash signed_header.data.header) then
    .error (.badBlockHash signed_header)
  else
    .ok signed_header

/-- Modelled from the spec: `insert_signature` (its implementation is
outside the embedded sources) appends the signature keyed by the block
number. -/
def insert_signature (db : Db) (number : Nat) (signature : Nat) : Db :=
  { db with block_signatures := db.block_signatures ++ [⟨number, signature⟩] }

/-- The write loop of `persist`: insert each header and its signature in
order; a failed insert aborts the enclosing transaction (`none`, nothing is
committed). -/
def persist_writes (db : Db) :
    List (PeerData SignedBlockHeader) → Option Db
  | [] => some db
  | sh :: rest =>
    match insert_block_header db sh.data.header with
    | Option.none => Option.none
    | some db1 =>
      persist_writes
        (insert_signature db1 sh.data.header.number sh.data.signature) rest

/-- `persist`: writes every header and signature of the batch in one
transaction and returns the popped (last) element of the batch; an empty
batch has nothing to pop. -/
def persist (signed_headers : List (PeerData SignedBlockHeader)) (db : Db) :
    Option (Db × PeerData SignedBlockHeader) :=
  (persist_writes db signed_headers).bind (fun committed =>
    signed_headers.getLast?.map (fun last => (committed, last)))

/-!
Concrete fixtures used by the closed theorems below.
-/

/-- A header with the given number, hash and parent hash and zero or default
everything else. -/
def mkTestHeader (number : Nat) (hash : Nat) (parent : Nat) : BlockHeader :=
  ⟨hash, parent, number, 0, 0, 0, 0, "", 0, 0, 0, 0, 0, 0, 0⟩

/-- Peer item A: the genesis-numbered header with hash 77. -/
def peerA : PeerData SignedBlockHeader := ⟨1, ⟨mkTestHeader 0 77 0, 0⟩⟩

/-- Peer item B: the proper successor of A, number 1, parent hash 77. -/
def peerB : PeerData SignedBlockHeader := ⟨1, ⟨mkTestHeader 1 88 77, 0⟩⟩

/-!
C1. Gap completeness of `next_gap`.
-/

/-- C1 (code bug): on empty storage with anchor `(5, 77)`, `next_gap`
returns `Gap{head := 5, tail := 1}` with `tail_parent_hash := 0`: block
`tail - 1 = 0` is absent (nothing at all is stored), yet the tail is 1
rather than genesis, so the gap does not reach the missing genesis block —
against the claim (and the source's own comment, which says the tail
"automatically becomes genesis if no actual tail block is found"). -/
theorem next_gap_empty_storage_misses_genesis :
    next_gap Db.empty 5 77 =
      some { head := 5, head_hash := 77, tail := 1, tail_parent_hash := 0 } ∧
    block_exists Db.empty (.number 0) = false ∧
    Db.empty.block_headers = [] := by
  refine ⟨rfl, rfl, rfl⟩

/-!
C2. Chain continuity of `check_continuity`.
-/

/-- C2 (code bug): `check_continuity` overwrites the expectation with the
current header's own number and hash, so (i) the duplicated stream
`[A, A]` passes in full without poisoning although the second item is not
the successor of the first, and (ii) the properly chained stream `[A, B]`
(B is A's successor: `parent_hash = hash A`, `number = number A + 1`) has
its second item flagged `Discontinuity` and the state poisoned. -/
theorem check_continuity_failing_inputs :
    runContinuity ⟨0, 77, false⟩ [peerA, peerA] =
      (⟨0, 77, false⟩, [.ok peerA, .ok peerA]) ∧
    peerA.data.header.number ≠ peerA.data.header.number + 1 ∧
    runContinuity ⟨0, 77, false⟩ [peerA, peerB] =
      (⟨1, 88, true⟩, [.ok peerA, .error (.discontinuity peerB)]) ∧
    peerB.data.header.parent_hash = peerA.data.header.hash ∧
    peerB.data.header.number = peerA.data.header.number + 1 := by
  refine ⟨rfl, by decide, rfl, rfl, rfl⟩

/-!
C4. Totality of header verification.
-/

/-- C4: for every hash-recomputation predicate (the source's `verify_hash`
is a stub carried as a required capability) and every signed header,
`verify` returns exactly one of `Ok`, `BadSignature`, `BadBlockHash`; and a
header both stubs accept (the signature stub accepts everything) yields
`Ok`. -/
theorem verify_header_total (verify_hash : BlockHeader → Bool)
    (signed_header : PeerData SignedBlockHeader) :
    (verify_header verify_hash signed_header = .ok signed_header ∨
      verify_header verify_hash signed_header =
        .error (.badSignature signed_header) ∨
      verify_header verify_hash signed_header =
        .error (.badBlockHash signed_header)) ∧
    (verify_hash signed_header.data.header = true →
      verify_header verify_hash signed_header = .ok signed_header) := by
  constructor
  · by_cases h : verify_hash signed_header.data.header <;>
      simp [verify_header, verify_signature, h]
  · intro h
    simp [verify_header, verify_signature, h]

/-- C4 witness: the totality theorem applied to the always-accepting
recomputation predicate and the concrete signed header A. -/
theorem verify_header_total_witness :
    (verify_header (fun _ => true) peerA = .ok peerA ∨
      verify_header (fun _ => true) peerA = .error (.badSignature peerA) ∨
      verify_header (fun _ => true) peerA = .error (.badBlockHash peerA)) ∧
    ((fun _ => true) peerA.data.header = true →
      verify_header (fun _ => true) peerA = .ok peerA) :=
  verify_header_total (fun _ => true) peerA

/-!
C7, C8, C3. The transaction hash round-trip and its fallbacks.
-/

/-- C7: `verify` answers `Match` exactly when the self-reported hash equals
the computed hash, and for the fallback variants the computed hash equals
the self-reported hash exactly when the modern formula or a legacy fallback
formula reproduces it (for L1 handlers: modern, legacy-with-nonce, or
legacy with the `invoke` tag and no nonce). -/
theorem verify_hash_roundtrip (P : HashPrims) (txn : Transaction)
    (chain_id : Felt) :
    (verify P txn chain_id = .matched ↔
      compute_transaction_hash P txn chain_id = txn.hash) ∧
    (∀ t : DeployTransaction,
      compute_deploy_hash P t chain_id = t.transaction_hash ↔
        (compute_txn_hash P deployTag t.version t.contract_address
            (some P.constructorSelector) (hashChain P t.constructor_calldata)
            Option.none chain_id .none Option.none = t.transaction_hash ∨
          legacy_compute_txn_hash P deployTag t.contract_address
            (some P.constructorSelector) (hashChain P t.constructor_calldata)
            chain_id Option.none = t.transaction_hash)) ∧
    (∀ t : InvokeTransactionV0,
      compute_invoke_v0_hash P t chain_id = t.transaction_hash ↔
        (compute_txn_hash P invokeTag 0 t.sender_address
            (some t.entry_point_selector) (hashChain P t.calldata)
            (some t.max_fee) chain_id .none Option.none =
            t.transaction_hash ∨
          legacy_compute_txn_hash P invokeTag t.sender_address
            (some t.entry_point_selector) (hashChain P t.calldata) chain_id
            Option.none = t.transaction_hash)) ∧
    (∀ t : L1HandlerTransaction,
      compute_l1_handler_hash P t chain_id = t.transaction_hash ↔
        (compute_txn_hash P l1HandlerTag t.version t.contract_address
            (some t.entry_point_selector) (hashChain P t.calldata)
            Option.none chain_id (.nonce t.nonce) Option.none =
            t.transaction_hash ∨
          legacy_compute_txn_hash P l1HandlerTag t.contract_address
            (some t.entry_point_selector) (hashChain P t.calldata) chain_id
            (some t.nonce) = t.transaction_hash ∨
          legacy_compute_txn_hash P invokeTag t.contract_address
            (some t.entry_point_selector) (hashChain P t.calldata) chain_id
            Option.none = t.transaction_hash)) := by
  refine ⟨?_, ?_, ?_, ?_⟩
  · simp only [verify]
    split_ifs with hc <;> simp [hc]
  · intro t
    simp only [compute_deploy_hash]
    split_ifs with hm <;> simp [hm]
  · intro t
    simp only [compute_invoke_v0_hash]
    split_ifs with hm <;> simp [hm]
  · intro t
    simp only [compute_l1_handler_hash]
    split_ifs with h1 h2
    · simp [h1]
    · simp [h1, h2]
    · simp [h1, h2]

/-- C8: the L1 handler computation tries the modern formula, then the
legacy formula with the `l1_handler` tag and the nonce, then the legacy
formula with the `invoke` tag and no nonce; the first whose result equals
the self-reported hash determines the result, and `verify` answers `Match`
exactly when one of the three matches. -/
theorem l1_handler_fallback_first_match (P : HashPrims)
    (txn : L1HandlerTransaction) (chain_id : Felt) :
    (compute_l1_handler_hash P txn chain_id =
      (if compute_txn_hash P l1HandlerTag txn.version txn.contract_address
          (some txn.entry_point_selector) (hashChain P txn.calldata)
          Option.none chain_id (.nonce txn.nonce) Option.none =
          txn.transaction_hash then
        compute_txn_hash P l1HandlerTag txn.version txn.contract_address
          (some txn.entry_point_selector) (hashChain P txn.calldata)
          Option.none chain_id (.nonce txn.nonce) Option.none
      else if legacy_compute_txn_hash P l1HandlerTag txn.contract_address
          (some txn.entry_point_selector) (hashChain P txn.calldata) chain_id
          (some txn.nonce) = txn.transaction_hash then
        legacy_compute_txn_hash P l1HandlerTag txn.contract_address
          (some txn.entry_point_selector) (hashChain P txn.calldata) chain_id
          (some txn.nonce)
      else
        legacy_compute_txn_hash P invokeTag txn.contract_address
          (some txn.entry_point_selector) (hashChain P txn.calldata) chain_id
          Option.none)) ∧
    (verify P (.l1Handler txn) chain_id = .matched ↔
      (compute_txn_hash P l1HandlerTag txn.version txn.contract_address
          (some txn.entry_point_selector) (hashChain P txn.calldata)
          Option.none chain_id (.nonce txn.nonce) Option.none =
          txn.transaction_hash ∨
        legacy_compute_txn_hash P l1HandlerTag txn.contract_address
          (some txn.entry_point_selector) (hashChain P txn.calldata) chain_id
          (some txn.nonce) = txn.transaction_hash ∨
        legacy_compute_txn_hash P invokeTag txn.contract_address
          (some txn.entry_point_selector) (hashChain P txn.calldata) chain_id
          Option.none = txn.transaction_hash)) := by
  constructor
  · rfl
  · have hv : verify P (.l1Handler txn) chain_id = .matched ↔
        compute_l1_handler_hash P txn chain_id = txn.transaction_hash := by
      simp only [verify, compute_transaction_hash, Transaction.hash]
      split_ifs with hc <;> simp [hc]
    rw [hv]
    simp only [compute_l1_handler_hash]
    split_ifs with h1 h2
    · simp [h1]
    · simp [h1, h2]
    · simp [h1, h2]

/-- Concrete instantiation of the abstract hash primitives used by the
closed counterexamples: an injective-enough toy Pedersen, a summing
Poseidon, a small constructor selector. -/
def testPrims : HashPrims where
  pedersen := fun a b => a + 2 * b + 1
  poseidon := fun xs => xs.foldl (fun a b => a + b) 0
  constructorSelector := 7

/-- A deploy transaction (version 0, contract 0, no constructor calldata)
whose self-reported hash 0 matches neither formula under `testPrims`. -/
def cexDeploy : DeployTransaction := ⟨0, 0, [], 0⟩

/-- C3 counterexample: for this deploy transaction neither the modern nor
the legacy formula reproduces the self-reported hash, and `verify` returns
`Mismatch` carrying the legacy-formula result, which differs from the
modern-formula result — so the mismatch does not carry the modern hash. -/
theorem deploy_mismatch_not_modern_cex :
    compute_txn_hash testPrims deployTag cexDeploy.version
        cexDeploy.contract_address (some testPrims.constructorSelector)
        (hashChain testPrims cexDeploy.constructor_calldata) Option.none 0
        .none Option.none ≠ cexDeploy.transaction_hash ∧
    legacy_compute_txn_hash testPrims deployTag cexDeploy.contract_address
        (some testPrims.constructorSelector)
        (hashChain testPrims cexDeploy.constructor_calldata) 0 Option.none ≠
      cexDeploy.transaction_hash ∧
    verify testPrims (.deploy cexDeploy) 0 =
      .mismatch (legacy_compute_txn_hash testPrims deployTag
        cexDeploy.contract_address (some testPrims.constructorSelector)
        (hashChain testPrims cexDeploy.constructor_calldata) 0 Option.none) ∧
    legacy_compute_txn_hash testPrims deployTag cexDeploy.contract_address
        (some testPrims.constructorSelector)
        (hashChain testPrims cexDeploy.constructor_calldata) 0 Option.none ≠
      compute_txn_hash testPrims deployTag cexDeploy.version
        cexDeploy.contract_address (some testPrims.constructorSelector)
        (hashChain testPrims cexDeploy.constructor_calldata) Option.none 0
        .none Option.none := by
  decide

/-- C3 amended: when neither the canonical formula nor any fallback
reproduces the self-reported hash of a Deploy, Invoke v0 or L1Handler
transaction, `verify` returns `Mismatch(h)` with `h` the result of the
last fallback formula tried (the legacy formula; for L1 handlers the
legacy formula with the `invoke` tag and no nonce). -/
theorem mismatch_carries_last_fallback (P : HashPrims) (chain_id : Felt) :
    (∀ t : DeployTransaction,
      compute_txn_hash P deployTag t.version t.contract_address
          (some P.constructorSelector) (hashChain P t.constructor_calldata)
          Option.none chain_id .none Option.none ≠ t.transaction_hash →
      legacy_compute_txn_hash P deployTag t.contract_address
          (some P.constructorSelector) (hashChain P t.constructor_calldata)
          chain_id Option.none ≠ t.transaction_hash →
      verify P (.deploy t) chain_id =
        .mismatch (legacy_compute_txn_hash P deployTag t.contract_address
          (some P.constructorSelector) (hashChain P t.constructor_calldata)
          chain_id Option.none)) ∧
    (∀ t : InvokeTransactionV0,
      compute_txn_hash P invokeTag 0 t.sender_address
          (some t.entry_point_selector) (hashChain P t.calldata)
          (some t.max_fee) chain_id .none Option.none ≠
          t.transaction_hash →
      legacy_compute_txn_hash P invokeTag t.sender_address
          (some t.entry_point_selector) (hashChain P t.calldata) chain_id
          Option.none ≠ t.transaction_hash →
      verify P (.invokeV0 t) chain_id =
        .mismatch (legacy_compute_txn_hash P invokeTag t.sender_address
          (some t.entry_point_selector) (hashChain P t.calldata) chain_id
          Option.none)) ∧
    (∀ t : L1HandlerTransaction,
      compute_txn_hash P l1HandlerTag t.version t.contract_address
          (some t.entry_point_selector) (hashChain P t.calldata)
          Option.none chain_id (.nonce t.nonce) Option.none ≠
          t.transaction_hash →
      legacy_compute_txn_hash P l1HandlerTag t.contract_address
          (some t.entry_point_selector) (hashChain P t.calldata) chain_id
          (some t.nonce) ≠ t.transaction_hash →
      legacy_compute_txn_hash P invokeTag t.contract_address
          (some t.entry_point_selector) (hashChain P t.calldata) chain_id
          Option.none ≠ t.transaction_hash →
      verify P (.l1Handler t) chain_id =
        .mismatch (legacy_compute_txn_hash P invokeTag t.contract_address
          (some t.entry_point_selector) (hashChain P t.calldata) chain_id
          Option.none)) := by
  refine ⟨?_, ?_, ?_⟩
  · intro t hm hl
    simp [verify, compute_transaction_hash, compute_deploy_hash,
      Transaction.hash, hm, hl]
  · intro t hm hl
    simp [verify, compute_transaction_hash, compute_invoke_v0_hash,
      Transaction.hash, hm, hl]
  · intro t h1 h2 h3
    simp [verify, compute_transaction_hash, compute_l1_handler_hash,
      Transaction.hash, h1, h2, h3]

/-- C3 witness: the amended mismatch theorem applied to the concrete deploy
transaction under the concrete primitives, hypotheses discharged by
evaluation. -/
theorem mismatch_carries_last_fallback_witness :
    verify testPrims (.deploy cexDeploy) 0 =
      .mismatch (legacy_compute_txn_hash testPrims deployTag
        cexDeploy.contract_address (some testPrims.constructorSelector)
        (hashChain testPrims cexDeploy.constructor_calldata) 0 Option.none) :=
  (mismatch_carries_last_fallback testPrims 0).1 cexDeploy (by decide)
    (by decide)

/-!
C5. Purge isolation.
-/

/-- C5: after `purge_block n`, a row survives in the canonical index, the
header table, `contract_roots`, `class_commitment_leaves`,
`contract_state_hashes`, `class_roots` or `storage_roots` exactly when it
was there before and is not keyed by `n`; a transaction row survives
exactly when it was there before and its block hash is not the canonical
hash at `n`; the class-definitions table is untouched. -/
theorem purge_block_isolation (db : Db) (n : Nat) :
    (∀ c, c ∈ (purge_block db n).canonical_blocks ↔
      c ∈ db.canonical_blocks ∧ c.1 ≠ n) ∧
    (∀ r, r ∈ (purge_block db n).block_headers ↔
      r ∈ db.block_headers ∧ r.number ≠ n) ∧
    (∀ r, r ∈ (purge_block db n).contract_roots ↔
      r ∈ db.contract_roots ∧ r.block_number ≠ n) ∧
    (∀ r, r ∈ (purge_block db n).class_commitment_leaves ↔
      r ∈ db.class_commitment_leaves ∧ r.block_number ≠ n) ∧
    (∀ r, r ∈ (purge_block db n).contract_state_hashes ↔
      r ∈ db.contract_state_hashes ∧ r.block_number ≠ n) ∧
    (∀ r, r ∈ (purge_block db n).class_roots ↔
      r ∈ db.class_roots ∧ r.block_number ≠ n) ∧
    (∀ r, r ∈ (purge_block db n).storage_roots ↔
      r ∈ db.storage_roots ∧ r.block_number ≠ n) ∧
    (∀ t, t ∈ (purge_block db n).starknet_transactions ↔
      t ∈ db.starknet_transactions ∧
        ∀ h, (db.canonical_blocks.find? (fun c => c.1 == n)).map (·.2) =
          some h → t.block_hash ≠ h) ∧
    (purge_block db n).class_definitions = db.class_definitions := by
  refine ⟨?_, ?_, ?_, ?_, ?_, ?_, ?_, ?_, rfl⟩ <;> intro x
  · simp [purge_block, List.mem_filter]
  · simp [purge_block, List.mem_filter]
  · simp [purge_block, List.mem_filter]
  · simp [purge_block, List.mem_filter]
  · simp [purge_block, List.mem_filter]
  · simp [purge_block, List.mem_filter]
  · simp [purge_block, List.mem_filter]
  · cases hfind : db.canonical_blocks.find? (fun c => c.1 == n) with
    | none => simp [purge_block, hfind, List.mem_filter]
    | some p => simp [purge_block, hfind, List.mem_filter]

/-!
C9. The canonical index and the header table keep equal row sets.
-/

/-- The `(number, hash)` rows of the `block_headers` table. -/
def headerPairs (db : Db) : List (Nat × Nat) :=
  db.block_headers.map (fun r => (r.number, r.hash))

/-- C9: if `canonical_blocks` and the `(number, hash)` rows of
`block_headers` agree as sets, they still agree after a successful
`insert_block_header` and after any `purge_block`. -/
theorem insert_purge_preserve_canonical_index (db : Db)
    (header : BlockHeader) (n : Nat)
    (h4 : ∀ p : Nat × Nat, p ∈ headerPairs db ↔ p ∈ db.canonical_blocks) :
    (∀ db2, insert_block_header db header = some db2 →
      ∀ p : Nat × Nat, p ∈ headerPairs db2 ↔ p ∈ db2.canonical_blocks) ∧
    (∀ p : Nat × Nat,
      p ∈ headerPairs (purge_block db n) ↔
        p ∈ (purge_block db n).canonical_blocks) := by
  constructor
  · intro db2 hins p
    simp only [insert_block_header] at hins
    split_ifs at hins
    rw [Option.some_inj] at hins
    subst hins
    simp only [headerPairs, List.map_append, List.mem_append,
      List.mem_singleton, List.map_cons, List.map_nil]
    rw [show (headerPairs db = db.block_headers.map
      (fun r => (r.number, r.hash))) from rfl] at h4
    simp [h4 p]
  · intro p
    have hmain := h4 p
    simp only [headerPairs, List.mem_map] at hmain ⊢
    simp only [purge_block, List.mem_filter]
    constructor
    · rintro ⟨r, ⟨hrdb, hcond⟩, hpair⟩
      refine ⟨hmain.mp ⟨r, hrdb, hpair⟩, ?_⟩
      subst hpair
      simpa using hcond
    · rintro ⟨hpc, hcond⟩
      obtain ⟨r, hrdb, hpair⟩ := hmain.mpr hpc
      refine ⟨r, ⟨hrdb, ?_⟩, hpair⟩
      subst hpair
      simpa using hcond

/-- C9 witness: the preservation theorem at the empty database (where both
row sets are empty), a fresh header and block number 3. -/
theorem insert_purge_preserve_canonical_index_witness :
    (∀ db2, insert_block_header Db.empty (mkTestHeader 5 50 0) = some db2 →
      ∀ p : Nat × Nat, p ∈ headerPairs db2 ↔ p ∈ db2.canonical_blocks) ∧
    (∀ p : Nat × Nat,
      p ∈ headerPairs (purge_block Db.empty 3) ↔
        p ∈ (purge_block Db.empty 3).canonical_blocks) :=
  insert_purge_preserve_canonical_index Db.empty (mkTestHeader 5 50 0) 3
    (by simp [headerPairs, Db.empty])

/-!
C10. The parent hash is derived at read time.
-/

/-- C10: when `block_header` selects a row (by number, hash or latest): a
genesis row is returned with parent hash 0; a row numbered `k + 1` whose
predecessor row `k` is absent makes the read error even though the
requested row exists; a row numbered `k + 1` whose predecessor is present
is returned with the predecessor's hash as parent hash. -/
theorem block_header_parent_derived (db : Db) (b : BlockId) (r : HeaderRow)
    (hsel : selected_header_row db b = some r) :
    (r.number = 0 →
      ∃ hdr, block_header db b = .ok (some hdr) ∧ hdr.parent_hash = 0 ∧
        hdr.number = r.number ∧ hdr.hash = r.hash) ∧
    (∀ k, r.number = k + 1 →
      db.block_headers.find? (fun p => p.number == k) = Option.none →
      block_header db b = .error .queryReturnedNoRows) ∧
    (∀ k parent, r.number = k + 1 →
      db.block_headers.find? (fun p => p.number == k) = some parent →
      ∃ hdr, block_header db b = .ok (some hdr) ∧
        hdr.parent_hash = parent.hash ∧ hdr.number = r.number ∧
        hdr.hash = r.hash) := by
  refine ⟨?_, ?_, ?_⟩
  · intro h0
    simp only [block_header, hsel]
    rw [if_neg (show ¬(r.number ≠ 0) from by simp [h0])]
    exact ⟨_, rfl, rfl, rfl, rfl⟩
  · intro k hk hfind
    simp only [block_header, hsel]
    rw [if_pos (show r.number ≠ 0 from by simp [hk]), hk,
      Nat.add_sub_cancel, hfind]
  · intro k parent hk hfind
    simp only [block_header, hsel]
    rw [if_pos (show r.number ≠ 0 from by simp [hk]), hk,
      Nat.add_sub_cancel, hfind]
    exact ⟨_, rfl, rfl, rfl, rfl⟩

/-- A genesis header row with hash 77. -/
def genesisRow : HeaderRow := ⟨0, 77, 0, 0, 0, 0, 0, 0, 0, 0, 0, 0, 0, 0⟩

/-- A header row numbered 2 with hash 22, stored without its predecessor. -/
def orphanRow : HeaderRow := ⟨2, 22, 0, 0, 0, 0, 0, 0, 0, 0, 0, 0, 0, 0⟩

/-- A database holding only the genesis row. -/
def dbGenesis : Db := { Db.empty with block_headers := [genesisRow] }

/-- A database holding only the orphan row numbered 2. -/
def dbOrphan : Db := { Db.empty with block_headers := [orphanRow] }

/-- C10 witness: the derivation theorem at a one-row genesis database
(fetch by number 0) and at a one-row database whose row 2 has no
predecessor (fetch by number 2). -/
theorem block_header_parent_derived_witness :
    ((genesisRow.number = 0 →
      ∃ hdr, block_header dbGenesis (.number 0) = .ok (some hdr) ∧
        hdr.parent_hash = 0 ∧ hdr.number = genesisRow.number ∧
        hdr.hash = genesisRow.hash) ∧
    (∀ k, genesisRow.number = k + 1 →
      dbGenesis.block_headers.find? (fun p => p.number == k) = Option.none →
      block_header dbGenesis (.number 0) = .error .queryReturnedNoRows) ∧
    (∀ k parent, genesisRow.number = k + 1 →
      dbGenesis.block_headers.find? (fun p => p.number == k) = some parent →
      ∃ hdr, block_header dbGenesis (.number 0) = .ok (some hdr) ∧
        hdr.parent_hash = parent.hash ∧ hdr.number = genesisRow.number ∧
        hdr.hash = genesisRow.hash)) ∧
    ((orphanRow.number = 0 →
      ∃ hdr, block_header dbOrphan (.number 2) = .ok (some hdr) ∧
        hdr.parent_hash = 0 ∧ hdr.number = orphanRow.number ∧
        hdr.hash = orphanRow.hash) ∧
    (∀ k, orphanRow.number = k + 1 →
      dbOrphan.block_headers.find? (fun p => p.number == k) = Option.none →
      block_header dbOrphan (.number 2) = .error .queryReturnedNoRows) ∧
    (∀ k parent, orphanRow.number = k + 1 →
      dbOrphan.block_headers.find? (fun p => p.number == k) = some parent →
      ∃ hdr, block_header dbOrphan (.number 2) = .ok (some hdr) ∧
        hdr.parent_hash = parent.hash ∧ hdr.number = orphanRow.number ∧
        hdr.hash = orphanRow.hash)) :=
  ⟨block_header_parent_derived dbGenesis (.number 0) genesisRow rfl,
   block_header_parent_derived dbOrphan (.number 2) orphanRow rfl⟩

/-!
C6. Persisting a batch of signed headers.
-/

/-- A header row holds exactly this header's column values (every stored
column except the interned version id). -/
def rowMatchesHeader (r : HeaderRow) (h : BlockHeader) : Prop :=
  r.number = h.number ∧ r.hash = h.hash ∧
  r.storage_commitment = h.storage_commitment ∧ r.timestamp = h.timestamp ∧
  r.eth_l1_gas_price = h.eth_l1_gas_price ∧
  r.strk_l1_gas_price = h.strk_l1_gas_price ∧
  r.sequencer_address = h.sequencer_address ∧
  r.transaction_commitment = h.transaction_commitment ∧
  r.event_commitment = h.event_commitment ∧
  r.state_commitment = h.state_commitment ∧
  r.class_commitment = h.class_commitment ∧
  r.transaction_count = h.transaction_count ∧
  r.event_count = h.event_count

/-- A successful `insert_block_header` only appends to the header table and
leaves the signature store alone. -/
theorem insert_block_header_mono (db db2 : Db) (header : BlockHeader)
    (hins : insert_block_header db header = some db2) :
    (∀ r, r ∈ db.block_headers → r ∈ db2.block_headers) ∧
    (∀ s, s ∈ db.block_signatures → s ∈ db2.block_signatures) := by
  simp only [insert_block_header] at hins
  split_ifs at hins
  rw [Option.some_inj] at hins
  subst hins
  exact ⟨fun r hr => by simp [hr], fun s hs => hs⟩

/-- The write loop of `persist` only ever appends: rows present before stay
present after a successful run. -/
theorem persist_writes_mono (batch : List (PeerData SignedBlockHeader)) :
    ∀ db db2, persist_writes db batch = some db2 →
      (∀ r, r ∈ db.block_headers → r ∈ db2.block_headers) ∧
      (∀ s, s ∈ db.block_signatures → s ∈ db2.block_signatures) := by
  induction batch with
  | nil =>
    intro db db2 h
    rw [persist_writes, Option.some_inj] at h
    subst h
    exact ⟨fun _ hr => hr, fun _ hs => hs⟩
  | cons sh rest ih =>
    intro db db2 h
    rw [persist_writes] at h
    cases hins : insert_block_header db sh.data.header with
    | none => rw [hins] at h; exact Option.noConfusion h
    | some db1 =>
      rw [hins] at h
      have hsig := ih _ _ h
      have hmono := insert_block_header_mono db db1 sh.data.header hins
      refine ⟨fun r hr => hsig.1 r ?_, fun s hs => hsig.2 s ?_⟩
      · exact hmono.1 r hr
      · simp only [insert_signature, List.mem_append]
        exact Or.inl (hmono.2 s hs)

/-- A successful `insert_block_header` stores a row matching the header. -/
theorem insert_block_header_stores (db db2 : Db) (header : BlockHeader)
    (hins : insert_block_header db header = some db2) :
    ∃ r ∈ db2.block_headers, rowMatchesHeader r header := by
  simp only [insert_block_header] at hins
  split_ifs at hins
  rw [Option.some_inj] at hins
  subst hins
  refine ⟨⟨header.number, header.hash, header.storage_commitment,
    header.timestamp, header.eth_l1_gas_price, header.strk_l1_gas_price,
    header.sequencer_address,
    (intern_starknet_version db.starknet_versions header.starknet_version).1,
    header.transaction_commitment, header.event_commitment,
    header.state_commitment, header.class_commitment,
    header.transaction_count, header.event_count⟩, ?_, ?_⟩
  · simp
  · exact ⟨rfl, rfl, rfl, rfl, rfl, rfl, rfl, rfl, rfl, rfl, rfl, rfl, rfl⟩

/-- A successful run of the write loop stores a matching header row and the
signature row for every element of the batch. -/
theorem persist_writes_stores (batch : List (PeerData SignedBlockHeader)) :
    ∀ db db2, persist_writes db batch = some db2 →
      ∀ sh ∈ batch,
        (∃ r ∈ db2.block_headers, rowMatchesHeader r sh.data.header) ∧
        (⟨sh.data.header.number, sh.data.signature⟩ : SignatureRow) ∈
          db2.block_signatures := by
  induction batch with
  | nil => intro db db2 _ sh hsh; exact absurd hsh (List.not_mem_nil sh)
  | cons first rest ih =>
    intro db db2 h sh hsh
    rw [persist_writes] at h
    cases hins : insert_block_header db first.data.header with
    | none => rw [hins] at h; exact Option.noConfusion h
    | some db1 =>
      rw [hins] at h
      rcases List.mem_cons.mp hsh with heq | hmem
      · subst heq
        have hmono := persist_writes_mono rest _ _ h
        constructor
        · obtain ⟨r, hr1, hrm⟩ :=
            insert_block_header_stores db db1 sh.data.header hins
          have hr2 : r ∈ (insert_signature db1 sh.data.header.number
              sh.data.signature).block_headers := hr1
          exact ⟨r, hmono.1 r hr2, hrm⟩
        · have hs1 : (⟨sh.data.header.number, sh.data.signature⟩ :
              SignatureRow) ∈ (insert_signature db1 sh.data.header.number
              sh.data.signature).block_signatures := by
            simp [insert_signature]
          exact hmono.2 _ hs1
      · exact ih _ _ h sh hmem

/-- C6 amended: a successful `persist` returns the last element of the
batch (the highest-numbered one when the batch is ascending), and the
resulting database holds a matching header row and the signature row for
every element of the batch; the writes happen in one transaction, so a
failed batch commits nothing. -/
theorem persist_stores_batch_and_returns_last
    (batch : List (PeerData SignedBlockHeader)) (db db2 : Db)
    (out : PeerData SignedBlockHeader)
    (hp : persist batch db = some (db2, out)) :
    batch.getLast? = some out ∧
    ∀ sh ∈ batch,
      (∃ r ∈ db2.block_headers, rowMatchesHeader r sh.data.header) ∧
      (⟨sh.data.header.number, sh.data.signature⟩ : SignatureRow) ∈
        db2.block_signatures := by
  rw [persist] at hp
  cases hw : persist_writes db batch with
  | none => rw [hw] at hp; exact Option.noConfusion hp
  | some committed =>
    rw [hw] at hp
    simp only [Option.some_bind] at hp
    cases hl : batch.getLast? with
    | none => rw [hl] at hp; exact Option.noConfusion hp
    | some last =>
      rw [hl] at hp
      simp only [Option.map_some', Option.some_inj, Prod.mk.injEq] at hp
      obtain ⟨hdb, hout⟩ := hp
      subst hdb
      subst hout
      exact ⟨rfl, persist_writes_stores batch db _ hw⟩

/-- A batch whose first header is numbered 5 and whose last is numbered 3:
not in ascending order, so the last element is not the highest-numbered. -/
def cexBatch : List (PeerData SignedBlockHeader) :=
  [⟨1, ⟨mkTestHeader 5 50 0, 91⟩⟩, ⟨1, ⟨mkTestHeader 3 30 0, 93⟩⟩]

/-- C6 counterexample: persisting this non-empty batch succeeds and returns
the header numbered 3, although the batch contains the higher-numbered
header 5 — the returned header is the last of the batch, not the
highest-numbered. -/
theorem persist_returns_last_not_highest_cex :
    (persist cexBatch Db.empty).map
      (fun result => result.2.data.header.number) = some 3 ∧
    cexBatch.map (fun sh => sh.data.header.number) = [5, 3] := by
  exact ⟨rfl, rfl⟩

/-- The database state `persist` produces from `cexBatch` on the empty
database. -/
def persistedDb : Db :=
  { block_headers := [⟨5, 50, 0, 0, 0, 0, 0, 0, 0, 0, 0, 0, 0, 0⟩,
                      ⟨3, 30, 0, 0, 0, 0, 0, 0, 0, 0, 0, 0, 0, 0⟩]
    canonical_blocks := [(5, 50), (3, 30)]
    starknet_versions := [""]
    starknet_transactions := []
    contract_roots := []
    class_commitment_leaves := []
    contract_state_hashes := []
    class_roots := []
    storage_roots := []
    block_signatures := [⟨5, 91⟩, ⟨3, 93⟩]
    class_definitions := [] }

/-- C6 witness: the persist theorem applied to the concrete two-element
batch on the empty database, whose run evaluates to `persistedDb` and the
batch's last element. -/
theorem persist_stores_batch_and_returns_last_witness :
    cexBatch.getLast? = some ⟨1, ⟨mkTestHeader 3 30 0, 93⟩⟩ ∧
    ∀ sh ∈ cexBatch,
      (∃ r ∈ persistedDb.block_headers, rowMatchesHeader r sh.data.header) ∧
      (⟨sh.data.header.number, sh.data.signature⟩ : SignatureRow) ∈
        persistedDb.block_signatures :=
  persist_stores_batch_and_returns_last cexBatch Db.empty persistedDb
    ⟨1, ⟨mkTestHeader 3 30 0, 93⟩⟩ (by decide)

end Pathfinder
